import Mathlib

/-!
Shallow embedding of `mirror_controller.py` (GalvoLSUDriver): the serial
transport's receive buffer and reply wait, the dot generators, the external
dot-list parser and the image-line encoder, together with proofs of the
documented properties.  Python integers are unbounded, so they are modelled
as `Int`/`Nat` with no overflow handling.
-/

namespace Mirror

/-- JSON values as produced by `json.loads`.  JSON numbers are modelled as
integers (the dot protocol uses integer fields only; float payloads are
outside the embedding).  An object is an association list whose keys are
distinct. -/
inductive JsonVal where
  | null : JsonVal
  | bool : Bool → JsonVal
  | num : Int → JsonVal
  | str : String → JsonVal
  | arr : List JsonVal → JsonVal
  | obj : List (String × JsonVal) → JsonVal
  deriving Repr

/-- Value of the module constant `DOT_CAP` as bound at line 46
(`DOT_CAP = 100`).  Python evaluates default-argument expressions at
function-definition time, so the `dot_cap` default of `image_line_to_dots`
(line 224) captured this value. -/
def DOT_CAP_initial : Nat := 100

/-- Value of `DOT_CAP` after the rebinding at line 364 (`DOT_CAP = 1024`).
The dot generators and `parse_dots_json` read the global at call time, so
every call made after module import sees this value. -/
def DOT_CAP : Nat := 1024

/-- Capacity of the receive queue, `queue.Queue(maxsize=1000)` (line 69). -/
def RXQ_CAP : Nat := 1000

/-- A dot record `\x7b"idxNorm": i, "rgbMask": m\x7d` (docstring line 15). -/
structure Dot where
  idxNorm : Int
  rgbMask : Int
  deriving Repr, DecidableEq

/-- Python `m & 0x07` on an unbounded int equals `m mod 8` in floor-mod
semantics; `Int.emod` with a positive modulus is that same operation. -/
def pyAnd7 (m : Int) : Int := m % 8

/-- Python `max(lo, min(hi, x))`. -/
def pyClamp (lo hi x : Int) : Int := max lo (min hi x)

/-- Embedding of `gen_single_dot` (lines 304-307). -/
def gen_single_dot (idx_norm : Int) (rgb_mask : Int) : List Dot :=
  [⟨pyClamp 0 65535 idx_norm, pyAnd7 rgb_mask⟩]

/-- Embedding of `gen_line` (lines 309-319).  The source computes
`int(i * 65535 / (n - 1))`: a Python float division then truncation.  For
`i * 65535 < 2^53` and `n - 1 ≤ 1023` the float quotient differs from the
exact rational by far less than 1/1023, the least nonzero distance of that
rational to an integer, so the truncation agrees with integer floor
division, used here. -/
def gen_line (n : Int) (rgb_mask : Int) : List Dot :=
  let nc : Nat := (pyClamp 1 (DOT_CAP : Int) n).toNat
  let mask := pyAnd7 rgb_mask
  if nc = 1 then [⟨32768, mask⟩]
  else (List.range nc).map fun i => ⟨((i * 65535) / (nc - 1) : Nat), mask⟩

/-- Ordering of dots by `idxNorm`, the sort key used at lines 332 and 359. -/
def dotLE (a b : Dot) : Prop := a.idxNorm ≤ b.idxNorm

instance : DecidableRel dotLE := fun a b =>
  inferInstanceAs (Decidable (a.idxNorm ≤ b.idxNorm))

instance : IsTotal Dot dotLE := ⟨fun a b => le_total a.idxNorm b.idxNorm⟩

instance : IsTrans Dot dotLE := ⟨fun _ _ _ hab hbc => le_trans hab hbc⟩

/-- Python's stable `list.sort(key=lambda d: d["idxNorm"])` modelled as a
stable insertion sort under `dotLE`. -/
def sortDots (l : List Dot) : List Dot := List.insertionSort dotLE l

/-- The per-colour count of `gen_color_bars`:
`n = max(1, min(DOT_CAP // 3, int(n_per_color)))` (line 322). -/
def barsCount (n_per_color : Int) : Nat :=
  (pyClamp 1 ((DOT_CAP : Int) / 3) n_per_color).toNat

/-- Dot position `int(i * 65535 / max(1, n - 1))` (lines 326-330); the
float-division truncation is exact floor division in this range, as for
`gen_line`. -/
def barsPos (n i : Nat) : Int := ((i * 65535) / (max 1 (n - 1)) : Nat)

/-- The concatenated R-, G-, B-runs built by the three loops of
`gen_color_bars` (lines 323-330). -/
def barsOut (n : Nat) : List Dot :=
  ((List.range n).map fun i => ⟨barsPos n i, 1⟩)
    ++ ((List.range n).map fun i => ⟨barsPos n i, 2⟩)
    ++ ((List.range n).map fun i => ⟨barsPos n i, 4⟩)

/-- Embedding of `gen_color_bars` (lines 321-333): build the three runs,
sort by `idxNorm`, truncate to `DOT_CAP`. -/
def gen_color_bars (n_per_color : Int) : List Dot :=
  (sortDots (barsOut (barsCount n_per_color))).take DOT_CAP

/-- Python `int(s)` on a string: optional surrounding whitespace, optional
sign, one or more digits (underscore digit grouping is not modelled);
`none` models the `ValueError` raised on any other string. -/
def strToInt? (s : String) : Option Int :=
  let t := s.trim
  let neg := t.startsWith "-"
  let core := if neg || t.startsWith "+" then t.drop 1 else t
  if core.length > 0 && core.all Char.isDigit then
    let mag : Int := core.foldl (fun acc c => acc * 10 + ((c.toNat - 48 : Nat) : Int)) 0
    some (if neg then -mag else mag)
  else none

/-- Python `int(v)` applied to a loaded JSON value: ints pass through,
booleans map to 0/1, numeric strings are parsed; `null`, arrays and objects
raise `TypeError`, modelled as `none`. -/
def pyIntOfJson : JsonVal → Option Int
  | .num n => some n
  | .bool b => some (if b then 1 else 0)
  | .str s => strToInt? s
  | _ => none

/-- Python `d.get(k, default)` on a JSON object. -/
def jsonGet (kvs : List (String × JsonVal)) (k : String) (d : JsonVal) : JsonVal :=
  match kvs.find? (fun (p : String × JsonVal) => p.1 == k) with
  | some p => p.2
  | none => d

/-- The accumulation loop of `parse_dots_json` (lines 350-358): entries
that are not dicts are skipped (`continue`, line 352); for dict entries the
`int()` coercions of `idxNorm` and `rgbMask` (lines 353-354) have no
surrounding `try`, so a non-coercible field raises out of the whole call
(`Except.error`); a coercible entry is clamped, masked and appended, and
the loop breaks once `DOT_CAP` entries have been collected (lines
357-358). -/
def parseLoop : List JsonVal → List Dot → Except String (List Dot)
  | [], dots => .ok dots
  | v :: rest, dots =>
    match v with
    | .obj kvs =>
      match pyIntOfJson (jsonGet kvs "idxNorm" (.num 0)) with
      | none => .error "int() raised on idxNorm"
      | some i =>
        match pyIntOfJson (jsonGet kvs "rgbMask" (.num 0)) with
        | none => .error "int() raised on rgbMask"
        | some m =>
          let d : Dot := ⟨pyClamp 0 65535 i, pyAnd7 m⟩
          if dots.length + 1 ≥ DOT_CAP then .ok (dots ++ [d])
          else parseLoop rest (dots ++ [d])
    | _ => parseLoop rest dots

/-- The list-shape dispatch of `parse_dots_json` (lines 348-360), applied
to the value left after the `"dots"` extraction: a JSON array runs the
accumulation loop and sorts the result (line 359); anything else is
reported as a shape error (line 349). -/
def parseTop (v1 : JsonVal) : Except String (List Dot × String) :=
  match v1 with
  | .arr xs =>
    (parseLoop xs []).map fun dots =>
      (sortDots dots, "ok (" ++ toString dots.length ++ " dots)")
  | _ => Except.ok ([], "expected a JSON list of dots or \x7bdots:[...]\x7d")

/-- Embedding of `parse_dots_json` (lines 335-360), taken after
`json.loads`: the text layer (strip and JSON syntax errors, lines 336-342)
is the external `json` module, so the embedding receives the loaded value,
with `none` standing for a text that failed to load (the source then
returns `([], <error text>)`).  An uncaught `int()` exception inside the
loop is `Except.error`.  A dict is replaced by its `"dots"` field when
present (lines 345-346). -/
def parse_dots_json (j : Option JsonVal) : Except String (List Dot × String) :=
  match j with
  | none => Except.ok ([], "JSON parse error")
  | some v =>
    match v with
    | .obj kvs =>
      if (kvs.find? (fun (p : String × JsonVal) => p.1 == "dots")).isSome then
        parseTop (jsonGet kvs "dots" .null)
      else parseTop (.obj kvs)
    | w => parseTop w

/-- A received line, `DeviceLine` (lines 51-55); the wall-clock timestamp
field `t` is real time and is omitted. -/
structure DeviceLine where
  raw : String
  obj : Option JsonVal
  deriving Repr

/-- The publish step of `_reader_loop` (lines 139-150): `put_nowait`, and
on `queue.Full` drop the oldest entry and retry; the retried put has its
own `except queue.Full: pass`, reachable only at capacity zero.  The queue
is the list front-to-back = oldest-to-newest, and the publisher never
blocks: every branch returns. -/
def publish (q : List DeviceLine) (dl : DeviceLine) : List DeviceLine :=
  if q.length < RXQ_CAP then q ++ [dl]
  else
    let q1 := q.drop 1
    if q1.length < RXQ_CAP then q1 ++ [dl] else q1

/-- The synthetic reply returned by `send_json` on timeout (line 173): its
`obj` is the parsed-object dictionary `\x7b"error": "timeout"\x7d`. -/
def timeoutLine : DeviceLine :=
  ⟨"(timeout waiting for JSON)", some (.obj [("error", .str "timeout")])⟩

/-- The reply-wait loop of `send_json` (lines 164-173).  `fuel` is the
number of 0.05-second polls that fit in `timeout_s`, so the loop performs
at most `fuel` polls and cannot run past the deadline plus one poll
interval.  Each successful `get` removes the front of the queue; a line
without a parsed JSON object is then simply dropped — the source's comment
(line 172) wants it kept for the logs, but no code re-queues it. -/
def waitJsonLoop : Nat → List DeviceLine → DeviceLine × List DeviceLine
  | 0, q => (timeoutLine, q)
  | fuel + 1, [] => waitJsonLoop fuel []
  | fuel + 1, dl :: q => if dl.obj.isSome then (dl, q) else waitJsonLoop fuel q

/-- Embedding of `send_json` (lines 152-173): the serial write itself goes
to the external link; the embedding covers the reply handling.  With
`wait_json = false` the call returns the synthetic `(sent)` marker
(line 162) without touching the queue. -/
def send_json (wait_json : Bool) (fuel : Nat) (q : List DeviceLine) :
    DeviceLine × List DeviceLine :=
  if wait_json then waitJsonLoop fuel q else (⟨"(sent)", none⟩, q)

/-- The push-back loop of `get_recent_lines` (lines 183-187): `put_nowait`
each drained item in order, `break` on `queue.Full`. -/
def pushBack (q : List DeviceLine) : List DeviceLine → List DeviceLine
  | [] => q
  | it :: rest => if q.length < RXQ_CAP then pushBack (q ++ [it]) rest else q

/-- Embedding of `get_recent_lines` (lines 175-188): drain the whole queue
into `items`, push everything back, and return the last `max_lines` entries
(`items[-max_lines:]`; a Python slice from `-0` yields the whole list).
Result: (snapshot, queue contents after the call). -/
def get_recent_lines (q : List DeviceLine) (max_lines : Nat) :
    List DeviceLine × List DeviceLine :=
  let items := q
  let q2 := pushBack [] items
  (items.drop (if max_lines = 0 then 0 else items.length - max_lines), q2)

/-- An 8-bit RGB pixel (channel values 0-255 after image loading). -/
structure Pixel where
  r : Nat
  g : Nat
  b : Nat
  deriving Repr, DecidableEq

/-- An RGB raster as a list of rows. -/
abbrev Image := List (List Pixel)

/-- Embedding of `_scale_image_for_dots` (lines 207-219): the identity when
the width already equals `dot_cap`; otherwise the PIL bilinear resample, an
external collaborator passed in as `resize`. -/
def scale_image_for_dots (resize : Image → Nat → Image) (rgb : Image)
    (dot_cap : Nat) : Image :=
  if (rgb.headD []).length = dot_cap then rgb else resize rgb dot_cap

/-- One iteration of the per-pixel loop of `image_line_to_dots` (lines
267-271): compute `mask` (the bitwise ors of the disjoint bits 1, 2, 4 are
written as sums) and skip mask-0 pixels with `continue`; the loop body of
the source contains no append statement, so the non-zero-mask branch also
leaves `dots` unchanged. -/
def scanStep (thr : Int) (dots : List Dot) (p : Pixel) : List Dot :=
  let mask : Int :=
    (if (p.r : Int) ≥ thr then 1 else 0)
      + (if (p.g : Int) ≥ thr then 2 else 0)
      + (if (p.b : Int) ≥ thr then 4 else 0)
  if mask = 0 then dots
  else dots

/-- The whole per-pixel loop of `image_line_to_dots` (lines 265-271),
starting from the empty `dots` list of line 265. -/
def scanLineDots (line_u8 : List Pixel) (thr : Int) : List Dot :=
  line_u8.foldl (scanStep thr) []

/-- Result type of `image_line_to_dots`: the docstring (lines 243-244)
promises a `(dots, meta)` pair, but the only `return` statement in the body
(line 272) yields a status dictionary. -/
inductive ImgLineResult where
  | pair : List Dot → List (String × Int) → ImgLineResult
  | status : String → ImgLineResult
  deriving Repr, DecidableEq

/-- Embedding of `image_line_to_dots` (lines 221-272) for the default
`gamma = 1.0` (the `g != 1.0` branch applies `np.power` in floating point
and is outside the embedding; at gamma 1 the float32 normalise/denormalise
round-trip is the identity on 8-bit data).  `resize` is the external PIL
resampler.  The computed `dots` list is dead code: the function
unconditionally returns the `autoscan_stopped` status object. -/
def image_line_to_dots (resize : Image → Nat → Image) (rgb : Image)
    (line_index : Option Int) (dot_cap : Nat) (threshold : Int)
    (serpentine : Bool) : ImgLineResult :=
  let scaled := scale_image_for_dots resize rgb dot_cap
  let H : Int := scaled.length
  let li0 : Int := match line_index with | none => H / 2 | some i => i
  let li : Int := max 0 (min (H - 1) li0)
  let row := scaled.getD li.toNat []
  let line_u8 := if serpentine && li % 2 == 1 then row.reverse else row
  let thr : Int := pyClamp 0 255 threshold
  let _dots := scanLineDots line_u8 thr
  ImgLineResult.status "autoscan_stopped"

/-- The default of `image_line_to_dots`'s `dot_cap` parameter: Python
evaluates the default expression `dot_cap: int = DOT_CAP` once, at
definition time (line 224), when the global still held 100 (line 46); the
rebinding to 1024 at line 364 does not update it. -/
def image_line_to_dots_default_cap : Nat := DOT_CAP_initial

/-- Modelled from the spec: `start_auto_image_scan` and
`stop_auto_image_scan` are invoked by the UI (lines 564 and 579) but their
definitions are missing from the module.  Spec §4.5: a scheduler session is
Idle or Running; `sessions` counts the currently scheduled scan sessions,
so a double-schedule would show as `sessions ≥ 2`. -/
structure ScanSched where
  sessions : Nat
  deriving Repr, DecidableEq

/-- Outcome of a start request on the scan scheduler. -/
inductive StartResult where
  | started : StartResult
  | already_running : StartResult
  deriving Repr, DecidableEq

/-- Modelled from the spec: "Start(...) rejects if a session is already
Running (only one concurrent auto-scan per controller instance)"
(spec §4.5); a rejected start leaves the scheduler state untouched and
schedules nothing. -/
def start_auto_image_scan (s : ScanSched) : ScanSched × StartResult :=
  if s.sessions ≥ 1 then (s, .already_running)
  else (⟨s.sessions + 1⟩, .started)

/-- Modelled from the spec: "stopping a Running session transitions it to
Idle" (spec §8); the stray `return \x7b"status": "autoscan_stopped"\x7d` at
line 272 of the source is the tail of this missing function. -/
def stop_auto_image_scan (_s : ScanSched) : ScanSched × String :=
  (⟨0⟩, "autoscan_stopped")

/-- A user-visible scheduler operation. -/
inductive SchedOp where
  | start : SchedOp
  | stop : SchedOp

/-- State transition of the scheduler for one operation. -/
def schedStep (s : ScanSched) : SchedOp → ScanSched
  | .start => (start_auto_image_scan s).1
  | .stop => (stop_auto_image_scan s).1

/-! ### Basic facts about the field normalisations -/

/-- Bounds on a dot's fields as the device protocol requires them:
`idxNorm` in `[0, 65535]` and `rgbMask` a 3-bit value. -/
def dotOK (d : Dot) : Prop :=
  0 ≤ d.idxNorm ∧ d.idxNorm ≤ 65535 ∧ 0 ≤ d.rgbMask ∧ d.rgbMask < 8

theorem pyAnd7_nonneg (m : Int) : 0 ≤ pyAnd7 m :=
  Int.emod_nonneg m (by decide)

theorem pyAnd7_lt_eight (m : Int) : pyAnd7 m < 8 :=
  Int.emod_lt_of_pos m (by decide)

theorem le_pyClamp (lo hi x : Int) : lo ≤ pyClamp lo hi x := le_max_left _ _

theorem pyClamp_le (lo hi x : Int) (h : lo ≤ hi) : pyClamp lo hi x ≤ hi :=
  max_le h (min_le_left _ _)

theorem clamped_dot_ok (i m : Int) : dotOK ⟨pyClamp 0 65535 i, pyAnd7 m⟩ :=
  ⟨le_pyClamp 0 65535 i, pyClamp_le 0 65535 i (by decide),
    pyAnd7_nonneg m, pyAnd7_lt_eight m⟩

/-! ### Facts about the sort -/

theorem sortDots_sorted (l : List Dot) : List.Sorted dotLE (sortDots l) :=
  List.sorted_insertionSort dotLE l

theorem sortDots_perm (l : List Dot) : List.Perm (sortDots l) l :=
  List.perm_insertionSort dotLE l

theorem sortDots_length (l : List Dot) : (sortDots l).length = l.length :=
  List.length_insertionSort dotLE l

theorem mem_sortDots {d : Dot} {l : List Dot} (h : d ∈ sortDots l) : d ∈ l :=
  (sortDots_perm l).mem_iff.mp h

/-- Mapping a monotone dot-valued function over `List.range` yields a
sorted list. -/
theorem sorted_map_range {f : Nat → Dot} (n : Nat)
    (hf : ∀ i j, i ≤ j → dotLE (f i) (f j)) :
    List.Sorted dotLE ((List.range n).map f) :=
  List.pairwise_map.mpr
    ((List.pairwise_lt_range n).imp fun h => hf _ _ (Nat.le_of_lt h))

/-! ### The image-line loop emits nothing -/

theorem scanStep_eq (thr : Int) (dots : List Dot) (p : Pixel) :
    scanStep thr dots p = dots := by
  unfold scanStep
  simp only [ite_self]

theorem scanLineDots_eq_nil (line : List Pixel) (thr : Int) :
    scanLineDots line thr = [] := by
  unfold scanLineDots
  generalize hacc : ([] : List Dot) = acc
  clear hacc
  induction line generalizing acc with
  | nil => rfl
  | cons p rest ih => rw [List.foldl_cons, scanStep_eq]; exact ih acc

/-! ### Facts about `gen_line` -/

theorem gen_line_length (n m : Int) :
    (gen_line n m).length = (pyClamp 1 (DOT_CAP : Int) n).toNat := by
  unfold gen_line
  by_cases h : (pyClamp 1 (DOT_CAP : Int) n).toNat = 1
  · simp [h]
  · simp [h]

theorem gen_line_le_cap (n m : Int) : (gen_line n m).length ≤ DOT_CAP := by
  rw [gen_line_length]
  have h := pyClamp_le 1 (DOT_CAP : Int) n (by decide)
  omega

theorem gen_line_sorted (n m : Int) : List.Sorted dotLE (gen_line n m) := by
  unfold gen_line
  by_cases h : (pyClamp 1 (DOT_CAP : Int) n).toNat = 1
  · simp only [h, if_pos]
    exact List.sorted_singleton _
  · simp only [h, if_neg, if_false]
    apply sorted_map_range
    intro i j hij
    show ((i * 65535 / ((pyClamp 1 (DOT_CAP : Int) n).toNat - 1) : Nat) : Int) ≤
      ((j * 65535 / ((pyClamp 1 (DOT_CAP : Int) n).toNat - 1) : Nat) : Int)
    exact_mod_cast Nat.div_le_div_right (Nat.mul_le_mul_right 65535 hij)

/-! ### Facts about `gen_color_bars` -/

/-- Number of dots with a given mask value. -/
def countMask (l : List Dot) (m : Int) : Nat :=
  l.countP fun d => d.rgbMask == m

theorem barsCount_le (n : Int) : barsCount n ≤ 341 := by
  unfold barsCount
  have h : pyClamp 1 ((DOT_CAP : Int) / 3) n ≤ 341 := by
    have := pyClamp_le 1 ((DOT_CAP : Int) / 3) n (by decide)
    simpa [DOT_CAP] using this
  omega

theorem one_le_barsCount (n : Int) : 1 ≤ barsCount n := by
  unfold barsCount
  have h := le_pyClamp 1 ((DOT_CAP : Int) / 3) n
  omega

theorem barsOut_length (n : Nat) : (barsOut n).length = 3 * n := by
  simp [barsOut]
  omega

theorem gen_color_bars_eq_sort (n : Int) :
    gen_color_bars n = sortDots (barsOut (barsCount n)) := by
  unfold gen_color_bars
  apply List.take_of_length_le
  rw [sortDots_length, barsOut_length]
  have := barsCount_le n
  simp [DOT_CAP]
  omega

theorem gen_color_bars_length (n : Int) :
    (gen_color_bars n).length = 3 * barsCount n := by
  rw [gen_color_bars_eq_sort, sortDots_length, barsOut_length]

theorem gen_color_bars_le_cap (n : Int) :
    (gen_color_bars n).length ≤ DOT_CAP := by
  rw [gen_color_bars_length]
  have := barsCount_le n
  simp [DOT_CAP]
  omega

theorem gen_color_bars_sorted (n : Int) :
    List.Sorted dotLE (gen_color_bars n) := by
  rw [gen_color_bars_eq_sort]
  exact sortDots_sorted _

theorem countMask_map_const (f : Nat → Int) (c m : Int) (n : Nat) :
    countMask ((List.range n).map fun i => ⟨f i, c⟩) m =
      if c = m then n else 0 := by
  unfold countMask
  rw [List.countP_map]
  by_cases h : c = m
  · simp [h, Function.comp_def]
  · simp [h, Function.comp_def, beq_eq_false_iff_ne.mpr h]

theorem countMask_gen_color_bars (n : Int) (m : Int) :
    countMask (gen_color_bars n) m =
      (if (1 : Int) = m then barsCount n else 0)
        + (if (2 : Int) = m then barsCount n else 0)
        + (if (4 : Int) = m then barsCount n else 0) := by
  rw [gen_color_bars_eq_sort]
  unfold countMask
  rw [(sortDots_perm (barsOut (barsCount n))).countP_eq]
  unfold barsOut
  rw [List.countP_append, List.countP_append]
  have h1 := countMask_map_const (barsPos (barsCount n)) 1 m (barsCount n)
  have h2 := countMask_map_const (barsPos (barsCount n)) 2 m (barsCount n)
  have h4 := countMask_map_const (barsPos (barsCount n)) 4 m (barsCount n)
  unfold countMask at h1 h2 h4
  rw [h1, h2, h4]

/-! ### Facts about `parse_dots_json` -/

/-- The dot that the loop of `parse_dots_json` would store for one entry:
`none` when the entry is not a dict or when an `int()` coercion of one of
its fields raises. -/
def entryDot? (v : JsonVal) : Option Dot :=
  match v with
  | .obj kvs =>
    match pyIntOfJson (jsonGet kvs "idxNorm" (.num 0)),
        pyIntOfJson (jsonGet kvs "rgbMask" (.num 0)) with
    | some i, some m => some ⟨pyClamp 0 65535 i, pyAnd7 m⟩
    | _, _ => none
  | _ => none

/-- An entry is benign for the loop when it is not a dict (it is skipped)
or when it is a dict whose two fields coerce with `int()`. -/
def entryCoercible (v : JsonVal) : Bool :=
  match v with
  | .obj _ => (entryDot? v).isSome
  | _ => true

theorem parseLoop_ok_bounds :
    ∀ (xs : List JsonVal) (acc dots : List Dot),
      (∀ d ∈ acc, dotOK d) → parseLoop xs acc = .ok dots →
      ∀ d ∈ dots, dotOK d := by
  intro xs
  induction xs with
  | nil =>
    intro acc dots hacc h
    injection h with h
    exact h ▸ hacc
  | cons v rest ih =>
    intro acc dots hacc h
    cases v with
    | obj kvs =>
      rw [parseLoop] at h
      cases hi : pyIntOfJson (jsonGet kvs "idxNorm" (.num 0)) with
      | none => rw [hi] at h; exact absurd h (by simp)
      | some i =>
        cases hm : pyIntOfJson (jsonGet kvs "rgbMask" (.num 0)) with
        | none => rw [hi, hm] at h; exact absurd h (by simp)
        | some m =>
          rw [hi, hm] at h
          simp only at h
          have hext : ∀ d ∈ acc ++ [(⟨pyClamp 0 65535 i, pyAnd7 m⟩ : Dot)], dotOK d := by
            intro d hd
            rcases List.mem_append.mp hd with hd | hd
            · exact hacc d hd
            · rw [List.mem_singleton] at hd
              exact hd ▸ clamped_dot_ok i m
          split at h
          · injection h with h
            exact h ▸ hext
          · exact ih _ dots hext h
    | null => exact ih _ dots hacc h
    | bool b => exact ih _ dots hacc h
    | num k => exact ih _ dots hacc h
    | str s => exact ih _ dots hacc h
    | arr ys => exact ih _ dots hacc h

theorem parseLoop_ok_length :
    ∀ (xs : List JsonVal) (acc dots : List Dot),
      acc.length < DOT_CAP → parseLoop xs acc = .ok dots →
      dots.length ≤ DOT_CAP := by
  intro xs
  induction xs with
  | nil =>
    intro acc dots hacc h
    injection h with h
    subst h
    exact Nat.le_of_lt hacc
  | cons v rest ih =>
    intro acc dots hacc h
    cases v with
    | obj kvs =>
      rw [parseLoop] at h
      cases hi : pyIntOfJson (jsonGet kvs "idxNorm" (.num 0)) with
      | none => rw [hi] at h; exact absurd h (by simp)
      | some i =>
        cases hm : pyIntOfJson (jsonGet kvs "rgbMask" (.num 0)) with
        | none => rw [hi, hm] at h; exact absurd h (by simp)
        | some m =>
          rw [hi, hm] at h
          simp only at h
          split at h
          · injection h with h
            rw [← h]
            simp
            omega
          · rename_i hc
            exact ih _ dots (by simp; omega) h
    | null => exact ih _ dots hacc h
    | bool b => exact ih _ dots hacc h
    | num k => exact ih _ dots hacc h
    | str s => exact ih _ dots hacc h
    | arr ys => exact ih _ dots hacc h

theorem parseTop_ok (v1 : JsonVal) (dots : List Dot) (msg : String)
    (h : parseTop v1 = .ok (dots, msg)) :
    List.Sorted dotLE dots ∧ dots.length ≤ DOT_CAP ∧ ∀ d ∈ dots, dotOK d := by
  cases v1 with
  | arr xs =>
    have h2 : Except.map
        (fun dots => (sortDots dots, "ok (" ++ toString dots.length ++ " dots)"))
        (parseLoop xs []) = Except.ok (dots, msg) := h
    cases hp : parseLoop xs [] with
    | error e => rw [hp] at h2; exact absurd h2 (by simp [Except.map])
    | ok dots0 =>
      rw [hp] at h2
      simp only [Except.map] at h2
      injection h2 with h2
      have hd : dots = sortDots dots0 := (congrArg Prod.fst h2).symm
      subst hd
      refine ⟨sortDots_sorted dots0, ?_, ?_⟩
      · rw [sortDots_length]
        exact parseLoop_ok_length xs [] dots0 (by simp [DOT_CAP]) hp
      · intro d hd
        exact parseLoop_ok_bounds xs [] dots0 (by simp) hp d (mem_sortDots hd)
  | null =>
    have h2 : Except.ok (([] : List Dot),
        "expected a JSON list of dots or \x7bdots:[...]\x7d") =
        Except.ok (dots, msg) := h
    injection h2 with h2
    have hd : dots = [] := (congrArg Prod.fst h2).symm
    subst hd
    exact ⟨List.sorted_nil, by simp [DOT_CAP], by simp⟩
  | bool b =>
    have h2 : Except.ok (([] : List Dot),
        "expected a JSON list of dots or \x7bdots:[...]\x7d") =
        Except.ok (dots, msg) := h
    injection h2 with h2
    have hd : dots = [] := (congrArg Prod.fst h2).symm
    subst hd
    exact ⟨List.sorted_nil, by simp [DOT_CAP], by simp⟩
  | num k =>
    have h2 : Except.ok (([] : List Dot),
        "expected a JSON list of dots or \x7bdots:[...]\x7d") =
        Except.ok (dots, msg) := h
    injection h2 with h2
    have hd : dots = [] := (congrArg Prod.fst h2).symm
    subst hd
    exact ⟨List.sorted_nil, by simp [DOT_CAP], by simp⟩
  | str s =>
    have h2 : Except.ok (([] : List Dot),
        "expected a JSON list of dots or \x7bdots:[...]\x7d") =
        Except.ok (dots, msg) := h
    injection h2 with h2
    have hd : dots = [] := (congrArg Prod.fst h2).symm
    subst hd
    exact ⟨List.sorted_nil, by simp [DOT_CAP], by simp⟩
  | obj kvs =>
    have h2 : Except.ok (([] : List Dot),
        "expected a JSON list of dots or \x7bdots:[...]\x7d") =
        Except.ok (dots, msg) := h
    injection h2 with h2
    have hd : dots = [] := (congrArg Prod.fst h2).symm
    subst hd
    exact ⟨List.sorted_nil, by simp [DOT_CAP], by simp⟩

theorem parse_dots_json_ok (j : Option JsonVal) (dots : List Dot)
    (msg : String) (h : parse_dots_json j = .ok (dots, msg)) :
    List.Sorted dotLE dots ∧ dots.length ≤ DOT_CAP ∧ ∀ d ∈ dots, dotOK d := by
  unfold parse_dots_json at h
  cases j with
  | none =>
    injection h with h
    have hd : dots = [] := (congrArg Prod.fst h).symm
    subst hd
    exact ⟨List.sorted_nil, by simp [DOT_CAP], by simp⟩
  | some v =>
    cases v with
    | obj kvs =>
      simp only at h
      split at h
      · exact parseTop_ok _ dots msg h
      · exact parseTop_ok _ dots msg h
    | null => exact parseTop_ok _ dots msg h
    | bool b => exact parseTop_ok _ dots msg h
    | num k => exact parseTop_ok _ dots msg h
    | str s => exact parseTop_ok _ dots msg h
    | arr ys => exact parseTop_ok _ dots msg h

/-- On a list whose dict entries all coerce, the loop keeps exactly the
dict entries (clamped and masked), in order, up to the remaining
capacity; non-dict entries are skipped. -/
theorem parseLoop_all_coercible :
    ∀ (xs : List JsonVal) (acc : List Dot),
      xs.all entryCoercible = true → acc.length < DOT_CAP →
      parseLoop xs acc =
        .ok (acc ++ (xs.filterMap entryDot?).take (DOT_CAP - acc.length)) := by
  intro xs
  induction xs with
  | nil => intro acc _ _; simp [parseLoop]
  | cons v rest ih =>
    intro acc hall hlen
    rw [List.all_cons, Bool.and_eq_true] at hall
    obtain ⟨hv, hrest⟩ := hall
    cases v with
    | obj kvs =>
      have hd0 : (entryDot? (.obj kvs)).isSome = true := hv
      cases hi : pyIntOfJson (jsonGet kvs "idxNorm" (.num 0)) with
      | none =>
        exact absurd hd0 (by simp [entryDot?, hi])
      | some i =>
        cases hm : pyIntOfJson (jsonGet kvs "rgbMask" (.num 0)) with
        | none =>
          exact absurd hd0 (by simp [entryDot?, hi, hm])
        | some m =>
          have hed : entryDot? (.obj kvs) =
              some ⟨pyClamp 0 65535 i, pyAnd7 m⟩ := by
            simp [entryDot?, hi, hm]
          rw [parseLoop, hi, hm]
          simp only
          rw [List.filterMap_cons_some hed]
          by_cases hc : acc.length + 1 ≥ DOT_CAP
          · rw [if_pos hc]
            have h1 : DOT_CAP - acc.length = 1 := by omega
            rw [h1, List.take_succ_cons, List.take_zero]
          · rw [if_neg hc]
            rw [ih (acc ++ [(⟨pyClamp 0 65535 i, pyAnd7 m⟩ : Dot)]) hrest
              (by simp; omega)]
            have h1 : DOT_CAP - acc.length = (DOT_CAP - (acc.length + 1)) + 1 := by
              omega
            rw [h1, List.take_succ_cons, List.append_assoc]
            simp
    | null =>
      rw [show parseLoop (JsonVal.null :: rest) acc = parseLoop rest acc from rfl,
        List.filterMap_cons_none (show entryDot? JsonVal.null = none from rfl)]
      exact ih acc hrest hlen
    | bool b =>
      rw [show parseLoop (JsonVal.bool b :: rest) acc = parseLoop rest acc from rfl,
        List.filterMap_cons_none (show entryDot? (JsonVal.bool b) = none from rfl)]
      exact ih acc hrest hlen
    | num k =>
      rw [show parseLoop (JsonVal.num k :: rest) acc = parseLoop rest acc from rfl,
        List.filterMap_cons_none (show entryDot? (JsonVal.num k) = none from rfl)]
      exact ih acc hrest hlen
    | str s =>
      rw [show parseLoop (JsonVal.str s :: rest) acc = parseLoop rest acc from rfl,
        List.filterMap_cons_none (show entryDot? (JsonVal.str s) = none from rfl)]
      exact ih acc hrest hlen
    | arr ys =>
      rw [show parseLoop (JsonVal.arr ys :: rest) acc = parseLoop rest acc from rfl,
        List.filterMap_cons_none (show entryDot? (JsonVal.arr ys) = none from rfl)]
      exact ih acc hrest hlen

/-! ### Facts about the transport -/

theorem waitJsonLoop_timeout :
    ∀ (fuel : Nat) (q : List DeviceLine),
      q.all (fun dl => dl.obj.isNone) = true →
      (waitJsonLoop fuel q).1 = timeoutLine := by
  intro fuel
  induction fuel with
  | zero => intro q _; rfl
  | succ f ih =>
    intro q hall
    cases q with
    | nil => exact ih [] rfl
    | cons dl q' =>
      rw [List.all_cons, Bool.and_eq_true] at hall
      obtain ⟨h1, h2⟩ := hall
      have hno : dl.obj.isSome = false := by
        cases hobj : dl.obj with
        | none => rfl
        | some o => rw [hobj] at h1; exact absurd h1 (by simp)
      rw [waitJsonLoop, hno]
      simp only [Bool.false_eq_true, if_false]
      exact ih q' h2

/-- One publish step keeps at most `RXQ_CAP` entries and, starting from a
queue within capacity, the whole published history is retained up to the
drop-oldest policy: the queue is always the most recent suffix. -/
theorem publish_foldl :
    ∀ (L q : List DeviceLine), q.length ≤ RXQ_CAP →
      L.foldl publish q = (q ++ L).drop (q.length + L.length - RXQ_CAP) := by
  intro L
  induction L with
  | nil =>
    intro q hq
    simp only [List.foldl_nil, List.append_nil, List.length_nil, Nat.add_zero,
      Nat.sub_eq_zero_of_le hq, List.drop_zero]
  | cons dl L ih =>
    intro q hq
    have hcap : RXQ_CAP = 1000 := rfl
    rw [List.foldl_cons]
    by_cases h : q.length < RXQ_CAP
    · have hpub : publish q dl = q ++ [dl] := by
        unfold publish
        rw [if_pos h]
      rw [hpub, ih _ (by simp; omega)]
      rw [List.append_assoc, List.singleton_append]
      have hidx : (q ++ [dl]).length + L.length - RXQ_CAP =
          q.length + (dl :: L).length - RXQ_CAP := by
        simp
        omega
      rw [hidx]
    · have hq' : q.length = RXQ_CAP := Nat.le_antisymm hq (Nat.le_of_not_lt h)
      have hpub : publish q dl = q.drop 1 ++ [dl] := by
        unfold publish
        rw [if_neg h, if_pos (by rw [List.length_drop]; omega)]
      rw [hpub, ih _ (by simp [List.length_drop]; omega)]
      have hqne : 1 ≤ q.length := by omega
      have hidx1 : (q.drop 1 ++ [dl]).length + L.length - RXQ_CAP = L.length := by
        simp [List.length_drop]
        omega
      have hidx2 : q.length + (dl :: L).length - RXQ_CAP = L.length + 1 := by
        simp
        omega
      rw [hidx1, hidx2, List.append_assoc, List.singleton_append,
        ← List.drop_append_of_le_length hqne, List.drop_drop,
        Nat.add_comm 1 L.length]

/-! ### Facts about the scan scheduler -/

theorem schedStep_sessions_le_one :
    ∀ (ops : List SchedOp) (s0 : ScanSched),
      s0.sessions ≤ 1 → (ops.foldl schedStep s0).sessions ≤ 1 := by
  intro ops
  induction ops with
  | nil => intro s0 h0; exact h0
  | cons op rest ih =>
    intro s0 h0
    rw [List.foldl_cons]
    apply ih
    cases op with
    | start =>
      by_cases hs : s0.sessions ≥ 1
      · simpa [schedStep, start_auto_image_scan, hs] using h0
      · simp [schedStep, start_auto_image_scan, hs]
        omega
    | stop => simp [schedStep, stop_auto_image_scan]

/-! ### Concrete inputs used by claim theorems and witnesses -/

/-- A resize collaborator; never reached when the image width already
equals `dot_cap`. -/
def trivialResize : Image → Nat → Image := fun img _ => img

/-- An all-white image of width 100 (the default `dot_cap`) and height 1. -/
def allWhiteImage : Image := [List.replicate 100 ⟨255, 255, 255⟩]

/-- A buffered line that is not JSON (no parsed object). -/
def nonJsonExample : DeviceLine := ⟨"READY", none⟩

/-- A buffered line carrying a parsed JSON object. -/
def jsonReplyExample : DeviceLine := ⟨"ok-reply", some (.obj [("ok", .bool true)])⟩

/-- A generic buffered line for the overflow scenario. -/
def sampleLine : DeviceLine := ⟨"telemetry", none⟩

/-- A dot list with one malformed entry (`idxNorm` is `null`, so `int()`
raises `TypeError`) followed by one well-formed entry. -/
def badDotList : List JsonVal :=
  [JsonVal.obj [("idxNorm", JsonVal.null)],
    JsonVal.obj [("idxNorm", JsonVal.num 5), ("rgbMask", JsonVal.num 1)]]

/-! ### Claim theorems -/

/-- C1: the claim says that for an all-white source image and threshold 0,
`image_line_to_dots` returns a pair `(dots, meta)` with exactly `dot_cap`
mask-`0b111` dots evenly spanning `[0, 65535]`.  The code cannot do this:
its loop never appends a dot and its only `return` yields the
`autoscan_stopped` status object, as evaluated here at the all-white input
(and, second conjunct, at every input). -/
theorem image_line_to_dots_always_status :
    image_line_to_dots trivialResize allWhiteImage none 100 0 false =
      ImgLineResult.status "autoscan_stopped" ∧
    ∀ resize rgb li cap thr serp,
      image_line_to_dots resize rgb li cap thr serp =
        ImgLineResult.status "autoscan_stopped" :=
  ⟨rfl, fun _ _ _ _ _ _ => rfl⟩

/-- C2: the claim says lines without a parsed JSON object that are polled
during a `send_json` reply wait remain retrievable through
`get_recent_lines`, the wait removing only the satisfying JSON line.  In
the code the wait's `get` removes every polled line and the non-JSON ones
are never re-queued: with buffer `[nonJsonExample, jsonReplyExample]` the
wait returns the JSON line, leaves the buffer empty, and the subsequent
log view returns nothing. -/
theorem send_json_wait_discards_nonjson :
    (send_json true 10 [nonJsonExample, jsonReplyExample]).1 = jsonReplyExample ∧
    (send_json true 10 [nonJsonExample, jsonReplyExample]).2 = [] ∧
    (get_recent_lines
      (send_json true 10 [nonJsonExample, jsonReplyExample]).2 200).1 = [] :=
  ⟨rfl, rfl, rfl⟩

/-- C3: every dot list produced by `gen_line`, `gen_color_bars` and
`parse_dots_json` is sorted ascending by `idxNorm` with length at most the
configured capacity `DOT_CAP`; the dot list built by `image_line_to_dots`'s
loop (`scanLineDots`, which the defective loop leaves empty) satisfies the
same bounds. -/
theorem encoder_outputs_sorted_capped :
    (∀ n m, List.Sorted dotLE (gen_line n m) ∧ (gen_line n m).length ≤ DOT_CAP) ∧
    (∀ n, List.Sorted dotLE (gen_color_bars n) ∧
      (gen_color_bars n).length ≤ DOT_CAP) ∧
    (∀ j dots msg, parse_dots_json j = Except.ok (dots, msg) →
      List.Sorted dotLE dots ∧ dots.length ≤ DOT_CAP) ∧
    (∀ line thr, List.Sorted dotLE (scanLineDots line thr) ∧
      (scanLineDots line thr).length ≤ DOT_CAP) := by
  refine ⟨fun n m => ⟨gen_line_sorted n m, gen_line_le_cap n m⟩,
    fun n => ⟨gen_color_bars_sorted n, gen_color_bars_le_cap n⟩,
    fun j dots msg h =>
      ⟨(parse_dots_json_ok j dots msg h).1, (parse_dots_json_ok j dots msg h).2.1⟩,
    fun line thr => ?_⟩
  rw [scanLineDots_eq_nil]
  exact ⟨List.sorted_nil, by simp [DOT_CAP]⟩

/-- Witness for C3: the parse conjunct applied to a concrete one-entry
list. -/
theorem encoder_outputs_sorted_capped_witness :
    List.Sorted dotLE [(⟨3, 7⟩ : Dot)] ∧ ([(⟨3, 7⟩ : Dot)]).length ≤ DOT_CAP :=
  encoder_outputs_sorted_capped.2.2.1
    (some (.arr [.obj [("idxNorm", .num 3), ("rgbMask", .num 7)]]))
    [⟨3, 7⟩] "ok (1 dots)" rfl

/-- C4 counterexample: the claim says each individually malformed entry is
skipped while all well-formed entries are kept.  On `badDotList` — one
entry whose `idxNorm` is `null` (so `int()` raises), one well-formed
entry — the code rejects the whole list with the uncaught exception, so the
well-formed entry is not kept. -/
theorem parse_dots_json_rejects_whole_list :
    parse_dots_json (some (.arr badDotList)) =
      Except.error "int() raised on idxNorm" :=
  rfl

/-- C4 (amended): entries that are not JSON objects are skipped while all
object entries whose fields coerce with `int()` are kept — clamped, masked,
capped at capacity and sorted; an object entry with a non-coercible field
instead raises and rejects the whole list. -/
theorem parse_dots_json_amended (xs : List JsonVal)
    (h : xs.all entryCoercible = true) :
    parse_dots_json (some (.arr xs)) =
      Except.ok (sortDots ((xs.filterMap entryDot?).take DOT_CAP),
        "ok (" ++ toString ((xs.filterMap entryDot?).take DOT_CAP).length
          ++ " dots)") := by
  have h0 : parse_dots_json (some (.arr xs)) =
      Except.map
        (fun dots => (sortDots dots, "ok (" ++ toString dots.length ++ " dots)"))
        (parseLoop xs []) := rfl
  rw [h0, parseLoop_all_coercible xs [] h (by decide)]
  simp only [Except.map, List.nil_append, List.length_nil, Nat.sub_zero]

/-- Witness for C4 (amended): one skipped non-object entry, one kept
object entry (clamped from 70000 to 65535, masked from 9 to 1). -/
theorem parse_dots_json_amended_witness :
    ([JsonVal.str "junk",
      JsonVal.obj [("idxNorm", JsonVal.num 70000), ("rgbMask", JsonVal.num 9)]].all
        entryCoercible = true) ∧
    parse_dots_json (some (.arr [JsonVal.str "junk",
      JsonVal.obj [("idxNorm", JsonVal.num 70000), ("rgbMask", JsonVal.num 9)]])) =
      Except.ok ([(⟨65535, 1⟩ : Dot)], "ok (1 dots)") := by
  refine ⟨rfl, ?_⟩
  rw [parse_dots_json_amended [JsonVal.str "junk",
    JsonVal.obj [("idxNorm", JsonVal.num 70000), ("rgbMask", JsonVal.num 9)]] rfl]
  rfl

/-- C5: when every buffered line lacks a parsed JSON object and none
arrives, a `send_json` with `wait_json = true` returns the synthetic
timeout `DeviceLine` whose `obj` is `\x7b"error": "timeout"\x7d`; the wait
performs at most `fuel` polls (the fuel argument bounds the loop, so it
cannot run past the deadline plus one poll interval). -/
theorem send_json_timeout_marker (fuel : Nat) (q : List DeviceLine)
    (h : q.all (fun dl => dl.obj.isNone) = true) :
    (send_json true fuel q).1 = timeoutLine ∧
    (send_json true fuel q).1.obj =
      some (JsonVal.obj [("error", JsonVal.str "timeout")]) := by
  have h1 : (waitJsonLoop fuel q).1 = timeoutLine := waitJsonLoop_timeout fuel q h
  refine ⟨h1, ?_⟩
  rw [show (send_json true fuel q).1 = (waitJsonLoop fuel q).1 from rfl, h1]
  rfl

/-- Witness for C5: a buffer holding a single non-JSON boot line. -/
theorem send_json_timeout_marker_witness :
    ([(⟨"boot-noise", none⟩ : DeviceLine)].all (fun dl => dl.obj.isNone) = true) ∧
    (send_json true 20 [(⟨"boot-noise", none⟩ : DeviceLine)]).1 = timeoutLine :=
  ⟨rfl, (send_json_timeout_marker 20 [⟨"boot-noise", none⟩] rfl).1⟩

/-- C6: publishing 1001 lines into the empty capacity-1000 receive buffer
leaves exactly the most recent 1000, the oldest being discarded; `publish`
is a total function of the previous queue, so the publisher never blocks. -/
theorem reader_overflow_drops_oldest (L : List DeviceLine)
    (h : L.length = 1001) :
    L.foldl publish [] = L.drop 1 ∧ (L.foldl publish []).length = RXQ_CAP := by
  have hp := publish_foldl L [] (by simp)
  simp only [List.length_nil, Nat.zero_add, List.nil_append] at hp
  constructor
  · rw [hp, h]
    rfl
  · rw [hp, List.length_drop, h]
    rfl

/-- Witness for C6: 1001 copies of a concrete line. -/
theorem reader_overflow_drops_oldest_witness :
    (List.replicate 1001 sampleLine).length = 1001 ∧
    (List.replicate 1001 sampleLine).foldl publish [] =
      (List.replicate 1001 sampleLine).drop 1 :=
  ⟨by rw [List.length_replicate],
    (reader_overflow_drops_oldest _ (by rw [List.length_replicate])).1⟩

/-- C7: `gen_color_bars n` yields `3 * n'` dots, where `n'` clamps `n` to
`[1, DOT_CAP / 3]`, capped at capacity, sorted ascending by `idxNorm`, with
exactly `n'` dots of each single-channel mask 1, 2 and 4. -/
theorem gen_color_bars_spec (n : Int) :
    (gen_color_bars n).length = 3 * barsCount n ∧
    (gen_color_bars n).length ≤ DOT_CAP ∧
    List.Sorted dotLE (gen_color_bars n) ∧
    countMask (gen_color_bars n) 1 = barsCount n ∧
    countMask (gen_color_bars n) 2 = barsCount n ∧
    countMask (gen_color_bars n) 4 = barsCount n := by
  refine ⟨gen_color_bars_length n, gen_color_bars_le_cap n,
    gen_color_bars_sorted n, ?_, ?_, ?_⟩
  · rw [countMask_gen_color_bars]
    norm_num
  · rw [countMask_gen_color_bars]
    norm_num
  · rw [countMask_gen_color_bars]
    norm_num

/-- C8: `gen_single_dot` stores a clamped `idxNorm` in `[0, 65535]` and
keeps only the low 3 bits of `rgbMask`, and so does every entry accepted by
`parse_dots_json`. -/
theorem dot_fields_normalized :
    (∀ i m, ∀ d ∈ gen_single_dot i m, dotOK d) ∧
    (∀ j dots msg, parse_dots_json j = Except.ok (dots, msg) →
      ∀ d ∈ dots, dotOK d) := by
  constructor
  · intro i m d hd
    rw [gen_single_dot, List.mem_singleton] at hd
    exact hd ▸ clamped_dot_ok i m
  · intro j dots msg h
    exact (parse_dots_json_ok j dots msg h).2.2

/-- Witness for C8: `gen_single_dot 70000 (-1)` stores `(65535, 7)`, and
the entry `(3, 15)` is accepted by the parser as `(3, 7)`. -/
theorem dot_fields_normalized_witness :
    dotOK ⟨65535, 7⟩ ∧ dotOK ⟨3, 7⟩ :=
  ⟨dot_fields_normalized.1 70000 (-1) ⟨65535, 7⟩ (by decide),
    dot_fields_normalized.2
      (some (.arr [.obj [("idxNorm", .num 3), ("rgbMask", .num 15)]]))
      [⟨3, 7⟩] "ok (1 dots)" rfl ⟨3, 7⟩ (List.mem_singleton.mpr rfl)⟩

/-- C9: starting a second auto-scan session while one is Running is
rejected cleanly — the scheduler state is unchanged and nothing new is
scheduled — and along every operation sequence from the idle state at most
one scan session is ever scheduled. -/
theorem autoscan_second_start_rejected (s : ScanSched) (h : s.sessions = 1) :
    (start_auto_image_scan s).2 = StartResult.already_running ∧
    (start_auto_image_scan s).1 = s ∧
    ∀ ops : List SchedOp, (ops.foldl schedStep ⟨0⟩).sessions ≤ 1 := by
  refine ⟨?_, ?_, fun ops => schedStep_sessions_le_one ops ⟨0⟩ (by simp)⟩
  · simp [start_auto_image_scan, h]
  · simp [start_auto_image_scan, h]

/-- Witness for C9: the running scheduler with one session. -/
theorem autoscan_second_start_rejected_witness :
    (ScanSched.mk 1).sessions = 1 ∧
    (start_auto_image_scan ⟨1⟩).2 = StartResult.already_running :=
  ⟨rfl, (autoscan_second_start_rejected ⟨1⟩ rfl).1⟩

/-- C10: after module import `DOT_CAP` is rebound from 100 to 1024, so
`gen_line` and `gen_color_bars` cap their output at 1024 at every call,
while `image_line_to_dots` called without an explicit `dot_cap` still uses
the definition-time default 100: the generators' capacity and the encoder's
default capacity disagree, and `gen_line` can return more dots than the
encoder default admits. -/
theorem dot_cap_rebinding_mismatch :
    DOT_CAP_initial = 100 ∧ DOT_CAP = 1024 ∧
    image_line_to_dots_default_cap = DOT_CAP_initial ∧
    image_line_to_dots_default_cap ≠ DOT_CAP ∧
    (∀ n m, (gen_line n m).length ≤ DOT_CAP) ∧
    (∀ n, (gen_color_bars n).length ≤ DOT_CAP) ∧
    (gen_line 1024 7).length = 1024 ∧
    image_line_to_dots_default_cap < (gen_line 1024 7).length := by
  refine ⟨rfl, rfl, rfl, by decide, gen_line_le_cap, gen_color_bars_le_cap,
    ?_, ?_⟩
  · rw [gen_line_length]
    decide
  · rw [gen_line_length]
    decide

end Mirror
